import Mathlib

/-!
Verification of the routing-registration core of flask-resteasy.

The definitions below are a shallow embedding of src/flask_resteasy.py:

* `unpack`, `jsonResponseCall` — the response normalizer (`unpack`,
  `JSONResponse.__call__`).
* `make_url`, `resolveRule` — URL composition (`Api._make_url`) and the
  patched blueprint-setup rule resolution (`Api._add_url_rule_patch`).
* `register_view`, `add_resource`, `init_app`, `register_blueprint` — the
  registration state machine of class `Api`.  External Flask collaborators
  (application route table, blueprint deferred-call recording, mount) are
  modelled by the interface the core consumes: `App.add_url_rule` appends a
  route and updates the endpoint-to-view mapping; a blueprint records
  deferred registrations and replays them at mount time through the patched
  setup-state `add_url_rule`.

Python-specific behaviours are kept: truthiness tests on strings and
options (`if _`, `or {}`, `if blueprint_setup.url_prefix`), identity tests
against `None` (`is None`), set insertion happening before the endpoint
conflict check, and exceptions aborting a call without rolling back
mutations already made.
-/

/-! ## Python values and the response normalizer -/

/-- A finished werkzeug/Flask response object (`ResponseBase` instance).
Only its identity matters to the core, which must pass it through
unchanged. -/
structure Response where
  tag : Nat
deriving DecidableEq, Repr

/-- Python values a view function may return: `None`, strings, ints,
dicts (header maps), finished response objects, and tuples. -/
inductive PyVal where
  | pynone
  | pystr (s : String)
  | pyint (n : Int)
  | pydict (pairs : List (String × String))
  | pyresp (r : Response)
  | pytuple (elems : List PyVal)

/-- The two distinct `ValueError`s that `unpack` can raise: the explicit
"View function did not return a response" (the spec's InvalidReturnValue),
and the interpreter's "too many values to unpack" from the tuple
unpacking statement. -/
inductive PyError where
  | viewReturnedNone
  | tooManyValues
deriving DecidableEq, Repr

/-- `rv is None` (identity test against the `None` singleton). -/
def PyVal.isNone : PyVal → Bool
  | .pynone => true
  | _ => false

/-- Python truthiness of a value, as used by `headers or {}`. -/
def PyVal.truthy : PyVal → Bool
  | .pynone => false
  | .pystr s => s != ""
  | .pyint n => n != 0
  | .pydict pairs => !pairs.isEmpty
  | .pyresp _ => true
  | .pytuple elems => !elems.isEmpty

/-- Result of `unpack`: either the response passed through, or the
`(data, status, headers)` triple. -/
inductive UnpackOut where
  | resp (r : Response)
  | triple (data status headers : PyVal)

/-- `unpack(rv)` from src/flask_resteasy.py lines 42-62.  A response is
passed through; a tuple is padded with `None` up to three slots and
unpacked (a longer tuple makes the unpacking statement itself raise); a
`None` payload raises; a `None` status defaults to `200`; falsy headers
default to `{}`. -/
def unpack (rv0 : PyVal) : Except PyError UnpackOut :=
  match rv0 with
  | .pyresp r => .ok (.resp r)
  | _ =>
    let unpacked : Except PyError (PyVal × PyVal × PyVal) :=
      match rv0 with
      | .pytuple elems =>
        match elems ++ List.replicate (3 - elems.length) .pynone with
        | [a, b, c] => .ok (a, b, c)
        | _ => .error .tooManyValues
      | v => .ok (v, .pynone, .pynone)
    match unpacked with
    | .error e => .error e
    | .ok (rv, status, headers) =>
      if rv.isNone then .error .viewReturnedNone
      else
        .ok (.triple rv (if status.isNone then .pyint 200 else status)
              (if headers.truthy then headers else .pydict []))

/-- The response produced by `JSONResponse.__call__`: either the exact
response object passed through, or the result of
`flask.make_response(encoder(data), status, Content-Type)` with the
caller headers extended onto it (`made body status contentType extra`). -/
inductive JResult where
  | passthrough (r : Response)
  | made (body : String) (status : PyVal) (contentType : String) (extra : PyVal)

/-- `JSONResponse.__call__` (lines 390-403), parametrized by the
configured encoder. -/
def jsonResponseCall (encode : PyVal → String) (rv : PyVal) : Except PyError JResult :=
  match rv with
  | .pyresp r => .ok (.passthrough r)
  | _ =>
    match unpack rv with
    | .error e => .error e
    | .ok (.resp r) => .ok (.passthrough r)
    | .ok (.triple data status headers) =>
      .ok (.made (encode data) status "application/json" headers)

/-- Spec-side reading of a return value as a 1-, 2- or 3-element
`(payload, statusCode, headerMap)` combination with absent slots set to
`None`; response objects and tuples longer than three do not form such a
combination. -/
def paddedTriple : PyVal → Option (PyVal × PyVal × PyVal)
  | .pyresp _ => none
  | .pytuple [] => some (.pynone, .pynone, .pynone)
  | .pytuple [a] => some (a, .pynone, .pynone)
  | .pytuple [a, b] => some (a, b, .pynone)
  | .pytuple [a, b, c] => some (a, b, c)
  | .pytuple _ => none
  | v => some (v, .pynone, .pynone)

/-! ## URL composition -/

/-- `''.join(_ for _ in parts if _)`: concatenate the fragments that are
truthy (neither `None` nor empty). -/
def pyJoinTruthy : List (Option String) → String
  | [] => ""
  | none :: rest => pyJoinTruthy rest
  | some s :: rest => if s = "" then pyJoinTruthy rest else s ++ pyJoinTruthy rest

/-- `Api._make_url(url_part, blueprint_prefix)` (lines 322-333), with
`pfx` standing for the api's registration-time `self.prefix`. -/
def make_url (pfx : String) (urlPart : String) (bpPfx : Option String) : String :=
  pyJoinTruthy [bpPfx, some pfx, some urlPart]

/-- A rule handed to `add_url_rule`: either a finished string, or the
deferred form `partial(self._make_url, url)`, which closes over the
declared url part and the api's own registration-time `self.prefix` and
waits for the mount prefix. -/
inductive UrlRule where
  | str (rule : String)
  | deferred (urlPart : String) (apiPfx : String)
deriving DecidableEq, Repr

/-- Rule resolution inside `Api._add_url_rule_patch` (lines 293-296): a
callable rule is applied to `blueprint_setup.url_prefix`; otherwise a
truthy url prefix is prepended to the string rule. -/
def resolveRule (urlPfx : Option String) : UrlRule → String
  | .deferred urlPart apiPfx => make_url apiPfx urlPart urlPfx
  | .str rule =>
    match urlPfx with
    | some p => if p = "" then rule else p ++ rule
    | none => rule

/-! ## String helper lemmas -/

theorem str_empty_append (s : String) : "" ++ s = s := rfl

theorem str_append_empty (s : String) : s ++ "" = s := by
  cases s with
  | mk l => show String.mk (l ++ []) = String.mk l
            rw [List.append_nil]

theorem str_append_assoc (a b c : String) : a ++ b ++ c = a ++ (b ++ c) := by
  cases a with
  | mk la =>
    cases b with
    | mk lb =>
      cases c with
      | mk lc => show String.mk (la ++ lb ++ lc) = String.mk (la ++ (lb ++ lc))
                 rw [List.append_assoc]

/-- Composition with truthiness-filtering equals plain concatenation of
the three fragments, an absent mount prefix contributing nothing. -/
theorem make_url_eq (pfx urlPart : String) (bpPfx : Option String) :
    make_url pfx urlPart bpPfx = bpPfx.getD "" ++ pfx ++ urlPart := by
  cases bpPfx with
  | none =>
    show pyJoinTruthy [some pfx, some urlPart] = "" ++ pfx ++ urlPart
    by_cases hp : pfx = "" <;> by_cases hu : urlPart = "" <;>
      simp [pyJoinTruthy, hp, hu, str_append_empty, str_empty_append]
  | some m =>
    show pyJoinTruthy [some m, some pfx, some urlPart] = m ++ pfx ++ urlPart
    by_cases hm : m = "" <;> by_cases hp : pfx = "" <;> by_cases hu : urlPart = "" <;>
      simp [pyJoinTruthy, hm, hp, hu, str_append_empty, str_empty_append, str_append_assoc]

/-! ## The registration state machine -/

/-- A resource class: Python object identity, `__name__`, and the
`endpoint` class attribute (absent until the registry first assigns it). -/
structure Resource where
  id : Nat
  name : String
  endpoint : Option String
deriving DecidableEq, Repr

/-- The view function built by
`output(resource.as_view(endpoint))` with the decorator chain
`chain(kwargs.pop('decorators', ()), self.decorators)` applied on top.
`resourceId` is the `view_class` attribute, `endpoint` the `__name__`
given to `as_view` (preserved by `wraps`), `decorators` the identities of
the applied decorators in application order (innermost first). -/
structure Handler where
  resourceId : Nat
  endpoint : String
  decorators : List Nat
deriving DecidableEq, Repr

/-- One entry of the host application's url map. -/
structure Route where
  rule : String
  endpoint : String
  handler : Handler
deriving DecidableEq, Repr

/-- The host Flask application, by the interface the core consumes: a
route table plus the `view_functions` endpoint-to-view mapping
(most recent binding first). -/
structure App where
  routes : List Route
  view_functions : List (String × Handler)
deriving DecidableEq, Repr

def App.empty : App := ⟨[], []⟩

/-- `app.add_url_rule(rule, endpoint, view_func)` on a live application:
append to the url map and bind the endpoint to the view function. -/
def App.add_url_rule (a : App) (rule : String) (endpoint : String) (handler : Handler) : App :=
  { routes := a.routes ++ [⟨rule, endpoint, handler⟩],
    view_functions := (endpoint, handler) :: a.view_functions }

/-- Lookup in `view_functions` (first, i.e. most recent, binding wins). -/
def lookupVF : List (String × Handler) → String → Option Handler
  | [], _ => none
  | (k, v) :: rest, e => if k = e then some v else lookupVF rest e

/-- A mountable group (Flask blueprint) by the interface the core
consumes: name, the `_got_registered_once` flag, the recorded deferred
`add_url_rule` calls, and whether the api's mount hook
(`_deferred_blueprint_init`) has been recorded on it. -/
structure BlueprintState where
  name : String
  registeredOnce : Bool
  deferredRules : List (UrlRule × Handler)
  hookRecorded : Bool
deriving DecidableEq, Repr

def BlueprintState.fresh (name : String) : BlueprintState := ⟨name, false, [], false⟩

/-- What `self.app` may hold: a live application or a blueprint. -/
inductive HostApp where
  | flask (a : App)
  | bp (b : BlueprintState)
deriving DecidableEq, Repr

/-- The part of `BlueprintSetupState` the patched `add_url_rule` reads:
the mount-time url prefix and the blueprint name used to qualify
endpoints. -/
structure SetupInfo where
  urlPfx : Option String
  bpName : String
deriving DecidableEq, Repr

/-- A buffered registration: `(resource, urls, kwargs)` as appended by
`add_resource` when no app is bound yet. -/
structure Entry where
  resource : Resource
  urls : List String
  endpointKw : Option String
  decorators : List Nat
deriving DecidableEq, Repr

/-- The mutable state of an `Api` object. -/
structure ApiState where
  pfx : String
  decorators : List Nat
  endpoints : List String
  resources : List Entry
  blueprint : Option String
  blueprintSetup : Option SetupInfo
deriving DecidableEq, Repr

/-- `Api.__init__` field initialization (no app bound yet). -/
def Api.new (pfx : String) (decorators : List Nat) : ApiState :=
  ⟨pfx, decorators, [], [], none, none⟩

/-- The `ValueError`s raised by the registration machinery, told apart by
their messages: the endpoint conflict in `_register_view`, the
already-registered-blueprint check in `init_app`, and the
register-once check in `_deferred_blueprint_init`. -/
inductive RegError where
  | endpointConflict (endpoint : String) (existingId : Nat) (newId : Nat)
  | alreadyMounted
  | repeatedMount
deriving DecidableEq, Repr

/-- Python's `str.lower()`, character by character. -/
def pyLower (s : String) : String := ⟨s.data.map Char.toLower⟩

/-- `kwargs.pop('endpoint', None) or resource.__name__.lower()`
(truthiness: an empty endpoint falls back to the lowercased name). -/
def resolveEndpoint (kw : Option String) (resourceName : String) : String :=
  match kw with
  | some e => if e = "" then pyLower resourceName else e
  | none => pyLower resourceName

/-- `self.endpoints.add(endpoint)` (set insertion). -/
def insertSet (e : String) (l : List String) : List String :=
  if e ∈ l then l else l ++ [e]

/-- Result of a registration call: the raised error if any, plus the
state of every object the call may have mutated (exceptions in Python do
not roll mutations back). -/
structure RegResult where
  error : Option RegError
  api : ApiState
  host : HostApp
  resource : Resource
deriving DecidableEq, Repr

/-- The endpoint conflict check of `_register_view` (lines 239-245): only
performed against a live application (`not isinstance(app, Blueprint)`),
and only an endpoint bound to a *different* view class raises. -/
def conflictCheck (host : HostApp) (endpoint : String) (resource : Resource) : Option RegError :=
  match host with
  | .bp _ => none
  | .flask a =>
    match lookupVF a.view_functions endpoint with
    | none => none
    | some existing =>
      if existing.resourceId ≠ resource.id then
        some (.endpointConflict endpoint existing.resourceId resource.id)
      else none

/-- `Api._add_url_rule_patch` (lines 278-304): resolve the rule against
the setup state's url prefix, derive the endpoint from the view function
when absent, qualify it with the blueprint name, and register with the
application. -/
def add_url_rule_patch (setup : SetupInfo) (a : App) (rule : UrlRule)
    (endpoint : Option String) (handler : Handler) : App :=
  a.add_url_rule (resolveRule setup.urlPfx rule)
    (setup.bpName ++ "." ++ endpoint.getD handler.endpoint) handler

/-- The per-url loop of `_register_view` (lines 254-276): with a set-up
blueprint, go through the patched setup-state `add_url_rule` with the
finished string rule; with a bound but not yet set-up blueprint, hand the
deferred rule to the host (a blueprint records it); with no blueprint,
register the finished string rule directly. -/
def registerUrls (s : ApiState) (handler : Handler) (urls : List String) (host : HostApp) : HostApp :=
  urls.foldl
    (fun h url =>
      match s.blueprint with
      | some _ =>
        match s.blueprintSetup with
        | some setup =>
          match h with
          | .flask a =>
            .flask (add_url_rule_patch setup a (.str (make_url s.pfx url none)) none handler)
          | .bp b =>
            .bp { b with deferredRules := b.deferredRules ++ [(.str (make_url s.pfx url none), handler)] }
        | none =>
          match h with
          | .bp b =>
            .bp { b with deferredRules := b.deferredRules ++ [(.deferred url s.pfx, handler)] }
          | .flask a => .flask a
      | none =>
        match h with
        | .flask a => .flask (a.add_url_rule (make_url s.pfx url none) handler.endpoint handler)
        | .bp b =>
          .bp { b with deferredRules := b.deferredRules ++ [(.str (make_url s.pfx url none), handler)] })
    host

/-- `Api._register_view` (lines 219-276): resolve the endpoint, add it to
the endpoint set, run the conflict check (raising aborts the call with
the set already grown), assign `resource.endpoint` only when the
attribute is absent, build the wrapped view function, and register every
declared url. -/
def register_view (s : ApiState) (host : HostApp) (resource : Resource)
    (urls : List String) (endpointKw : Option String) (perDecs : List Nat) : RegResult :=
  let endpoint := resolveEndpoint endpointKw resource.name
  let s1 := { s with endpoints := insertSet endpoint s.endpoints }
  match conflictCheck host endpoint resource with
  | some e => ⟨some e, s1, host, resource⟩
  | none =>
    let resource1 :=
      match resource.endpoint with
      | none => { resource with endpoint := some endpoint }
      | some _ => resource
    let handler : Handler := ⟨resource.id, endpoint, perDecs ++ s.decorators⟩
    ⟨none, s1, registerUrls s1 handler urls host, resource1⟩

/-- Result of `add_resource`: like `RegResult` but the api may be
unbound. -/
structure AddResult where
  error : Option RegError
  api : ApiState
  host : Option HostApp
  resource : Resource
deriving DecidableEq, Repr

/-- `Api.add_resource` (lines 179-217): register immediately when an app
is bound, otherwise buffer the entry. -/
def add_resource (s : ApiState) (host : Option HostApp) (resource : Resource)
    (urls : List String) (endpointKw : Option String) (perDecs : List Nat) : AddResult :=
  match host with
  | some h =>
    let r := register_view s h resource urls endpointKw perDecs
    ⟨r.error, r.api, some r.host, r.resource⟩
  | none =>
    ⟨none, { s with resources := s.resources ++ [⟨resource, urls, endpointKw, perDecs⟩] },
     none, resource⟩

/-- `Api.init_app` on a blueprint (lines 104-124): refuse a blueprint
that was already registered with an app, otherwise record the mount hook
and remember the blueprint. -/
def init_app (s : ApiState) (b : BlueprintState) : Option RegError × ApiState × BlueprintState :=
  if b.registeredOnce then (some .alreadyMounted, s, b)
  else (none, { s with blueprint := some b.name }, { b with hookRecorded := true })

/-- `Api.__init__` with a blueprint argument: initialize the fields, bind
`self.app`, and run `init_app`; an exception escaping the constructor
leaves no usable registry behind. -/
def Api.constructWithBlueprint (pfx : String) (decorators : List Nat) (b : BlueprintState) :
    Except RegError (ApiState × BlueprintState) :=
  match init_app (Api.new pfx decorators) b with
  | (some e, _, _) => .error e
  | (none, s, b1) => .ok (s, b1)

/-- `Api._init_app` (lines 126-133): replay the buffered entries against
the live application; an exception aborts the replay. -/
def initBuffered (s : ApiState) (a : App) : List Entry → Option RegError × ApiState × App
  | [] => (none, s, a)
  | e :: rest =>
    let r := register_view s (.flask a) e.resource e.urls e.endpointKw e.decorators
    match r.host with
    | .flask a1 =>
      match r.error with
      | some err => (some err, r.api, a1)
      | none => initBuffered r.api a1 rest
    | .bp _ =>
      match r.error with
      | some err => (some err, r.api, a)
      | none => initBuffered r.api a rest

/-- `Api._deferred_blueprint_init` (lines 135-156): remember the setup
state (and patch its `add_url_rule`), refuse a non-first registration,
then replay the buffered entries against the setup state's app. -/
def deferredBlueprintInit (s : ApiState) (setup : SetupInfo) (firstReg : Bool) (a : App) :
    Option RegError × ApiState × App :=
  let s1 := { s with blueprintSetup := some setup }
  if firstReg then initBuffered s1 a s1.resources
  else (some .repeatedMount, s1, a)

/-- Mounting the group on an application
(`app.register_blueprint(blueprint, url_prefix=...)`), by the interface
the core consumes: the group signals whether this is its first mount,
becomes mounted, and its recorded deferred calls replay in order — the
api's hook first (it installs the patch), then every recorded
`add_url_rule` through the patched setup state.  An exception from the
hook propagates and stops the replay. -/
def register_blueprint (s : ApiState) (b : BlueprintState) (a : App) (urlPfx : Option String) :
    Option RegError × ApiState × BlueprintState × App :=
  let setup : SetupInfo := ⟨urlPfx, b.name⟩
  let b1 := { b with registeredOnce := true }
  match deferredBlueprintInit s setup (!b.registeredOnce) a with
  | (some e, s1, a1) => (some e, s1, b1, a1)
  | (none, s1, a1) =>
    (none, s1, b1,
     b.deferredRules.foldl (fun acc rh => add_url_rule_patch setup acc rh.1 none rh.2) a1)

/-! ## Registration pipelines for the deferred-vs-direct comparison -/

/-- A sequence of `add_resource` calls on a bound api: the first raised
exception stops the sequence. -/
def addAll (s : ApiState) (h : HostApp) : List Entry → Option RegError × ApiState × HostApp
  | [] => (none, s, h)
  | e :: rest =>
    let r := register_view s h e.resource e.urls e.endpointKw e.decorators
    match r.error with
    | some err => (some err, r.api, r.host)
    | none => addAll r.api r.host rest

/-- Registering a set of resources on an api constructed with a
not-yet-mounted blueprint, then mounting the blueprint with the given
url prefix: the final application state. -/
def deferredPipeline (apiPfx : String) (regDecs : List Nat) (bpName : String)
    (entries : List Entry) (mountPfx : Option String) : Option RegError × App :=
  match Api.constructWithBlueprint apiPfx regDecs (BlueprintState.fresh bpName) with
  | .error e => (some e, App.empty)
  | .ok (s, b) =>
    match addAll s (.bp b) entries with
    | (some e, _, _) => (some e, App.empty)
    | (none, s1, .bp b1) =>
      let m := register_blueprint s1 b1 App.empty mountPfx
      (m.1, m.2.2.2)
    | (none, _, .flask a) => (none, a)

/-- Registering the same resources on an api bound to a live application
whose effective registration-time prefix is given: the final application
state. -/
def directPipeline (effPfx : String) (regDecs : List Nat) (entries : List Entry) :
    Option RegError × App :=
  match addAll (Api.new effPfx regDecs) (.flask App.empty) entries with
  | (err, _, .flask a) => (err, a)
  | (err, _, .bp _) => (err, App.empty)

/-- The observable `(final URL, handler)` pairs of an application's route
table. -/
def routePairs (a : App) : List (String × Handler) :=
  a.routes.map (fun rt => (rt.rule, rt.handler))

/-! ## Decorator wrapping (`Api.output` and the decorator chain) -/

/-- An instrumented view function: it receives the call log accumulated
so far and returns the extended log. -/
def View := List String → List String

/-- `Api.output` (lines 306-320): wrap the view function so that its
return value goes through the responder. -/
def Api.output (responder : View) (resource : View) : View :=
  fun trace => responder (resource trace)

/-- Lines 249-252: start from the normalizer-wrapped view and apply
`chain(kwargs.pop('decorators', ()), self.decorators)` — the
per-registration decorators first, then the registry-level ones. -/
def buildResourceFunc (responder : View) (regDecs perDecs : List (View → View))
    (resource : View) : View :=
  (perDecs ++ regDecs).foldl (fun f d => d f) (Api.output responder resource)

/-- A tracing decorator: it logs its name when entered, then calls
through to the function it wraps. -/
def wrapName (n : String) (f : View) : View :=
  fun trace => f (trace ++ [n])

/-! ## Route lists produced by the two registration pipelines -/

/-- The endpoint an entry resolves to. -/
def resE (e : Entry) : String := resolveEndpoint e.endpointKw e.resource.name

/-- The view function built for an entry by a registry with the given
registry-level decorators. -/
def handlerOf (regDecs : List Nat) (e : Entry) : Handler :=
  ⟨e.resource.id, resE e, e.decorators ++ regDecs⟩

def concatMap (f : α → List β) : List α → List β
  | [] => []
  | x :: rest => f x ++ concatMap f rest

/-- The deferred rules a blueprint accumulates when the entries are
registered against it before mounting. -/
def bpRules (apiPfx : String) (regDecs : List Nat) (entries : List Entry) :
    List (UrlRule × Handler) :=
  concatMap (fun e => e.urls.map (fun u => (UrlRule.deferred u apiPfx, handlerOf regDecs e))) entries

/-- The routes added by registering the entries directly against a live
application. -/
def dirRoutes (effPfx : String) (regDecs : List Nat) (entries : List Entry) : List Route :=
  concatMap (fun e => e.urls.map (fun u =>
    Route.mk (make_url effPfx u none) (resE e) (handlerOf regDecs e))) entries

/-- The `view_functions` bindings added by registering the entries
directly (most recent first). -/
def vfAdd (regDecs : List Nat) : List Entry → List (String × Handler)
  | [] => []
  | e :: rest => vfAdd regDecs rest ++ List.replicate e.urls.length (resE e, handlerOf regDecs e)

/-- No endpoint name is claimed by two distinct resources among the
entries. -/
def NoConflict (entries : List Entry) : Prop :=
  ∀ e1 ∈ entries, ∀ e2 ∈ entries, resE e1 = resE e2 → e1.resource.id = e2.resource.id

/-- Every entry's endpoint is either unbound in the application or bound
to that entry's own resource. -/
def Consistent (a : App) (entries : List Entry) : Prop :=
  ∀ e ∈ entries, ∀ h, lookupVF a.view_functions (resE e) = some h → h.resourceId = e.resource.id

/-! ## Concrete fixtures used by witnesses and counterexamples -/

/-- A view function registered under endpoint `foo` for resource class 0. -/
def handlerFoo : Handler := ⟨0, "foo", []⟩

/-- An application that already serves endpoint `foo` with resource
class 0. -/
def appFoo : App := ⟨[⟨"/a", "foo", handlerFoo⟩], [("foo", handlerFoo)]⟩

/-- A distinct resource class (identity 1) not yet registered anywhere. -/
def resourceB : Resource := ⟨1, "B", none⟩

/-- An unmounted blueprint carrying one deferred registration and the
api's mount hook. -/
def bpHello : BlueprintState :=
  ⟨"bp", false, [(UrlRule.deferred "/hi" "/api", ⟨0, "hello", []⟩)], true⟩

/-- Resource class 0 declared at `/a` under endpoint `e`. -/
def entryA : Entry := ⟨⟨0, "A", none⟩, ["/a"], some "e", []⟩

/-- Resource class 1 declared at `/b` under the same endpoint `e`. -/
def entryB : Entry := ⟨⟨1, "B", none⟩, ["/b"], some "e", []⟩

/-- Resource class 2 declared at two paths under its default endpoint,
with one per-registration decorator. -/
def entryC : Entry := ⟨⟨2, "C", none⟩, ["/c", "/c2"], none, [5]⟩

/-! ## Claim theorems -/

/-- Claim C1: for every api registration prefix and non-empty mount
prefix and declared path, composition yields exactly the concatenation
mount ++ registration ++ declared, the deferred form
(`partial(_make_url, url)` applied later to the mount prefix) returns the
identical string, and an absent mount prefix is skipped. -/
theorem c1_compose_order (m r d : String) (hm : m ≠ "") (hd : d ≠ "") :
    make_url r d (some m) = m ++ r ++ d ∧
    resolveRule (some m) (UrlRule.deferred d r) = m ++ r ++ d ∧
    make_url r d none = r ++ d := by
  have h1 : make_url r d (some m) = m ++ r ++ d := by
    simpa using make_url_eq r d (some m)
  refine ⟨h1, h1, ?_⟩
  simpa [str_empty_append] using make_url_eq r d none

/-- Witness for C1 at the spec's own example fragments. -/
theorem c1_compose_order_witness :
    ("/bp" : String) ≠ "" ∧ ("/hi" : String) ≠ "" ∧
    (make_url "/api" "/hi" (some "/bp") = "/bp" ++ "/api" ++ "/hi" ∧
     resolveRule (some "/bp") (UrlRule.deferred "/hi" "/api") = "/bp" ++ "/api" ++ "/hi" ∧
     make_url "/api" "/hi" none = "/api" ++ "/hi") :=
  ⟨by decide, by decide, c1_compose_order "/bp" "/api" "/hi" (by decide) (by decide)⟩

/-- Claim C8: a finished response object is returned unchanged; any other
return value read as a 1-, 2- or 3-element `(payload, status, headers)`
combination gets status 200 when the status slot is missing or `None`,
an empty header map when the headers slot is missing or falsy, and
normalization raises the InvalidReturnValue error exactly when the
payload slot is `None`/absent. -/
theorem c8_normalize (encode : PyVal → String) (rv : PyVal) :
    (∀ r : Response, rv = .pyresp r → jsonResponseCall encode rv = .ok (.passthrough r)) ∧
    (∀ d0 s0 h0, paddedTriple rv = some (d0, s0, h0) →
      jsonResponseCall encode rv =
        if d0.isNone then .error .viewReturnedNone
        else .ok (.made (encode d0) (if s0.isNone then .pyint 200 else s0)
              "application/json" (if h0.truthy then h0 else .pydict []))) := by
  constructor
  · rintro r rfl
    rfl
  · rintro d0 s0 h0 hp
    cases rv with
    | pynone =>
      obtain ⟨rfl, rfl, rfl⟩ : PyVal.pynone = d0 ∧ PyVal.pynone = s0 ∧ PyVal.pynone = h0 := by
        simpa [paddedTriple] using hp
      rfl
    | pystr s =>
      obtain ⟨rfl, rfl, rfl⟩ : PyVal.pystr s = d0 ∧ PyVal.pynone = s0 ∧ PyVal.pynone = h0 := by
        simpa [paddedTriple] using hp
      rfl
    | pyint n =>
      obtain ⟨rfl, rfl, rfl⟩ : PyVal.pyint n = d0 ∧ PyVal.pynone = s0 ∧ PyVal.pynone = h0 := by
        simpa [paddedTriple] using hp
      rfl
    | pydict pairs =>
      obtain ⟨rfl, rfl, rfl⟩ : PyVal.pydict pairs = d0 ∧ PyVal.pynone = s0 ∧ PyVal.pynone = h0 := by
        simpa [paddedTriple] using hp
      rfl
    | pyresp r => simp [paddedTriple] at hp
    | pytuple elems =>
      rcases elems with _ | ⟨a, _ | ⟨b, _ | ⟨c, _ | ⟨d, rest⟩⟩⟩⟩
      · obtain ⟨rfl, rfl, rfl⟩ : PyVal.pynone = d0 ∧ PyVal.pynone = s0 ∧ PyVal.pynone = h0 := by
          simpa [paddedTriple] using hp
        rfl
      · obtain ⟨rfl, rfl, rfl⟩ : a = d0 ∧ PyVal.pynone = s0 ∧ PyVal.pynone = h0 := by
          simpa [paddedTriple] using hp
        cases ha : a.isNone <;> simp [jsonResponseCall, unpack, ha]
      · obtain ⟨rfl, rfl, rfl⟩ : a = d0 ∧ b = s0 ∧ PyVal.pynone = h0 := by
          simpa [paddedTriple] using hp
        cases ha : a.isNone <;> simp [jsonResponseCall, unpack, ha]
      · obtain ⟨rfl, rfl, rfl⟩ : a = d0 ∧ b = s0 ∧ c = h0 := by
          simpa [paddedTriple] using hp
        cases ha : a.isNone <;> simp [jsonResponseCall, unpack, ha]
      · simp [paddedTriple] at hp

/-- Witness for C8: a bare one-element payload gets status 200 and an
empty header map. -/
theorem c8_normalize_witness :
    paddedTriple (.pytuple [.pystr "hi"]) = some (.pystr "hi", .pynone, .pynone) ∧
    jsonResponseCall (fun _ => "body") (.pytuple [.pystr "hi"])
      = .ok (.made "body" (.pyint 200) "application/json" (.pydict [])) := by
  refine ⟨rfl, ?_⟩
  have h := (c8_normalize (fun _ => "body") (.pytuple [.pystr "hi"])).2
    (.pystr "hi") .pynone .pynone rfl
  simpa [PyVal.isNone, PyVal.truthy] using h

/-- Claim C10: a tuple longer than three makes the unpacking pattern
itself fail — `unpack` raises the interpreter's too-many-values error,
which is not the InvalidReturnValue error, and no response is
produced. -/
theorem c10_long_tuple (elems : List PyVal) (h : 3 < elems.length) :
    unpack (.pytuple elems) = .error .tooManyValues ∧
    (∀ encode, jsonResponseCall encode (.pytuple elems) = .error .tooManyValues) ∧
    PyError.tooManyValues ≠ PyError.viewReturnedNone := by
  obtain ⟨a, b, c, d, rest, rfl⟩ : ∃ a b c d rest, elems = a :: b :: c :: d :: rest := by
    rcases elems with _ | ⟨a, _ | ⟨b, _ | ⟨c, _ | ⟨d, rest⟩⟩⟩⟩
    · simp at h
    · simp at h
    · simp at h
    · simp at h
    · exact ⟨a, b, c, d, rest, rfl⟩
  have h0 : 3 - (a :: b :: c :: d :: rest).length = 0 := by simp
  refine ⟨?_, fun encode => ?_, by decide⟩
  · simp [unpack, h0]
  · simp [jsonResponseCall, unpack, h0]

/-- Witness for C10 at a four-element tuple. -/
theorem c10_long_tuple_witness :
    3 < ([PyVal.pyint 1, .pyint 2, .pyint 3, .pyint 4] : List PyVal).length ∧
    unpack (.pytuple [.pyint 1, .pyint 2, .pyint 3, .pyint 4]) = .error .tooManyValues :=
  ⟨by decide, (c10_long_tuple [.pyint 1, .pyint 2, .pyint 3, .pyint 4] (by decide)).1⟩

/-- Claim C4: registering a different resource under an endpoint already
bound in the application raises the endpoint conflict and leaves the
application (hence its route table) untouched, while re-registering the
resource that already owns the endpoint passes the conflict check; the
check runs in every registry's own registration call. -/
theorem c4_endpoint_conflict (s : ApiState) (a : App) (r : Resource)
    (urls : List String) (kw : Option String) (perDecs : List Nat) (existing : Handler)
    (hlook : lookupVF a.view_functions (resolveEndpoint kw r.name) = some existing) :
    (existing.resourceId ≠ r.id →
      register_view s (.flask a) r urls kw perDecs =
        ⟨some (.endpointConflict (resolveEndpoint kw r.name) existing.resourceId r.id),
         { s with endpoints := insertSet (resolveEndpoint kw r.name) s.endpoints },
         .flask a, r⟩) ∧
    (existing.resourceId = r.id →
      (register_view s (.flask a) r urls kw perDecs).error = none) := by
  constructor
  · intro hne
    simp [register_view, conflictCheck, hlook, hne]
  · intro heq
    simp [register_view, conflictCheck, hlook, heq]

/-- Witness for C4: endpoint `foo` is bound to resource class 0; resource
class 1 collides. -/
theorem c4_endpoint_conflict_witness :
    lookupVF appFoo.view_functions (resolveEndpoint (some "foo") resourceB.name)
      = some handlerFoo ∧
    register_view (Api.new "" []) (.flask appFoo) resourceB ["/x"] (some "foo") [] =
      ⟨some (.endpointConflict (resolveEndpoint (some "foo") resourceB.name)
          handlerFoo.resourceId resourceB.id),
       { Api.new "" [] with
           endpoints := insertSet (resolveEndpoint (some "foo") resourceB.name)
             (Api.new "" []).endpoints },
       .flask appFoo, resourceB⟩ :=
  ⟨by decide,
   (c4_endpoint_conflict (Api.new "" []) appFoo resourceB ["/x"] (some "foo") []
      handlerFoo (by decide)).1 (by decide)⟩

/-- Claim C5: the registry assigns `resource.endpoint` only when the
attribute is not yet present — an existing assignment is never
overwritten by any later registration through any registry — and a first
successful registration assigns the resolved endpoint. -/
theorem c5_endpoint_assignment (s : ApiState) (host : HostApp) (r : Resource)
    (urls : List String) (kw : Option String) (perDecs : List Nat) :
    (∀ e, r.endpoint = some e →
      (register_view s host r urls kw perDecs).resource.endpoint = some e) ∧
    (r.endpoint = none → (register_view s host r urls kw perDecs).error = none →
      (register_view s host r urls kw perDecs).resource.endpoint
        = some (resolveEndpoint kw r.name)) := by
  constructor
  · rintro e he
    cases hc : conflictCheck host (resolveEndpoint kw r.name) r <;>
      simp [register_view, hc, he]
  · intro he herr
    cases hc : conflictCheck host (resolveEndpoint kw r.name) r <;>
      simp [register_view, hc, he] at herr ⊢

/-- Witness for C5: a resource whose endpoint was already assigned keeps
it across a second registration under a different registry. -/
theorem c5_endpoint_assignment_witness :
    (Resource.mk 7 "Foo" (some "bar")).endpoint = some "bar" ∧
    (register_view (Api.new "/v2" [9]) (.flask App.empty) ⟨7, "Foo", some "bar"⟩
        ["/f"] none []).resource.endpoint = some "bar" :=
  ⟨rfl,
   (c5_endpoint_assignment (Api.new "/v2" [9]) (.flask App.empty) ⟨7, "Foo", some "bar"⟩
      ["/f"] none []).1 "bar" rfl⟩

/-- Claim C6: binding (or constructing with) a group that was already
registered with an application fails with the already-mounted error and
leaves the registry exactly as it was — still unbound, no blueprint
remembered, buffered entries untouched — and the failed constructor
yields no registry at all. -/
theorem c6_already_mounted (s : ApiState) (b : BlueprintState) (pfx : String)
    (decs : List Nat) (h : b.registeredOnce = true) :
    init_app s b = (some .alreadyMounted, s, b) ∧
    Api.constructWithBlueprint pfx decs b = .error .alreadyMounted := by
  constructor
  · simp [init_app, h]
  · simp [Api.constructWithBlueprint, init_app, h]

/-- Witness for C6 at a mounted blueprint. -/
theorem c6_already_mounted_witness :
    (BlueprintState.mk "bp" true [] false).registeredOnce = true ∧
    init_app (Api.new "/v" [3]) ⟨"bp", true, [], false⟩
      = (some .alreadyMounted, Api.new "/v" [3], ⟨"bp", true, [], false⟩) ∧
    Api.constructWithBlueprint "/v" [3] ⟨"bp", true, [], false⟩ = .error .alreadyMounted :=
  ⟨rfl, c6_already_mounted (Api.new "/v" [3]) ⟨"bp", true, [], false⟩ "/v" [3] rfl⟩

/-- Counterexample to claim C3 as stated: an `add_resource` call that
fails with the endpoint conflict has nevertheless grown the registry's
endpoint set (`self.endpoints.add` runs before the conflict check). -/
theorem c3_endpoint_set_counterexample :
    (add_resource (Api.new "" []) (some (.flask appFoo)) resourceB ["/x"]
        (some "foo") []).error.isSome = true ∧
    (add_resource (Api.new "" []) (some (.flask appFoo)) resourceB ["/x"]
        (some "foo") []).api.endpoints ≠ (Api.new "" []).endpoints := by
  decide

/-- Claim C3 as amended: a failed `add_resource` call registers none of
the declared paths (the application is untouched), leaves the
buffered-entry list and the resource unchanged, and changes the
endpoint set only by having already inserted the resolved endpoint name
before the conflict check. -/
theorem c3_failed_add_resource_amended (s : ApiState) (a : App) (r : Resource)
    (urls : List String) (kw : Option String) (perDecs : List Nat)
    (hfail : (add_resource s (some (.flask a)) r urls kw perDecs).error.isSome = true) :
    add_resource s (some (.flask a)) r urls kw perDecs =
      ⟨(add_resource s (some (.flask a)) r urls kw perDecs).error,
       { s with endpoints := insertSet (resolveEndpoint kw r.name) s.endpoints },
       some (.flask a), r⟩ := by
  cases hc : conflictCheck (.flask a) (resolveEndpoint kw r.name) r with
  | none => simp [add_resource, register_view, hc] at hfail
  | some e => simp [add_resource, register_view, hc]

/-- Witness for C3's amended claim at the counterexample input. -/
theorem c3_failed_add_resource_amended_witness :
    (add_resource (Api.new "" []) (some (.flask appFoo)) resourceB ["/x"]
        (some "foo") []).error.isSome = true ∧
    add_resource (Api.new "" []) (some (.flask appFoo)) resourceB ["/x"] (some "foo") [] =
      ⟨(add_resource (Api.new "" []) (some (.flask appFoo)) resourceB ["/x"]
          (some "foo") []).error,
       { Api.new "" [] with
           endpoints := insertSet (resolveEndpoint (some "foo") resourceB.name)
             (Api.new "" []).endpoints },
       some (.flask appFoo), resourceB⟩ :=
  ⟨by decide,
   c3_failed_add_resource_amended (Api.new "" []) appFoo resourceB ["/x"] (some "foo") []
     (by decide)⟩

/-- Replaying recorded blueprint rules through the patched
`add_url_rule` appends exactly the resolved, endpoint-qualified
routes. -/
theorem foldl_patch_routes (setup : SetupInfo) (l : List (UrlRule × Handler)) :
    ∀ a : App,
      (l.foldl (fun acc rh => add_url_rule_patch setup acc rh.1 none rh.2) a).routes
        = a.routes ++ l.map (fun rh =>
            Route.mk (resolveRule setup.urlPfx rh.1)
              (setup.bpName ++ "." ++ rh.2.endpoint) rh.2) := by
  induction l with
  | nil => intro a; simp
  | cons rh rest ih =>
    intro a
    simp only [List.foldl_cons, List.map_cons]
    rw [ih]
    simp [add_url_rule_patch, App.add_url_rule]

/-- Claim C7: for a group carrying deferred registrations (and a registry
with nothing left in its own buffer), the first mount finalizes every
deferred rule into the application, and any second mount of the group
raises the repeated-mount error before any re-finalization, leaving the
target application without any new or duplicated route. -/
theorem c7_repeated_mount (s : ApiState) (b : BlueprintState) (a : App)
    (urlPfx : Option String) (hres : s.resources = []) (hfirst : b.registeredOnce = false) :
    ((register_blueprint s b a urlPfx).1 = none ∧
     (register_blueprint s b a urlPfx).2.2.2.routes
       = a.routes ++ b.deferredRules.map (fun rh =>
           Route.mk (resolveRule urlPfx rh.1) (b.name ++ "." ++ rh.2.endpoint) rh.2)) ∧
    (∀ s2 a2 up2,
      (register_blueprint s2 (register_blueprint s b a urlPfx).2.2.1 a2 up2).1
          = some .repeatedMount ∧
      (register_blueprint s2 (register_blueprint s b a urlPfx).2.2.1 a2 up2).2.2.2 = a2) := by
  have hrun : register_blueprint s b a urlPfx
      = (none, { s with blueprintSetup := some ⟨urlPfx, b.name⟩ },
         { b with registeredOnce := true },
         b.deferredRules.foldl
           (fun acc rh => add_url_rule_patch ⟨urlPfx, b.name⟩ acc rh.1 none rh.2) a) := by
    simp [register_blueprint, deferredBlueprintInit, hfirst, hres, initBuffered]
  refine ⟨⟨by rw [hrun], ?_⟩, ?_⟩
  · rw [hrun]
    exact foldl_patch_routes ⟨urlPfx, b.name⟩ b.deferredRules a
  · intro s2 a2 up2
    rw [hrun]
    constructor <;> simp [register_blueprint, deferredBlueprintInit]

/-- Witness for C7: one deferred rule is finalized to `/bp/api/hi` at the
first mount, and a second mount raises and adds nothing. -/
theorem c7_repeated_mount_witness :
    (Api.new "/api" []).resources = [] ∧
    bpHello.registeredOnce = false ∧
    (register_blueprint (Api.new "/api" []) bpHello App.empty (some "/bp")).1 = none ∧
    (register_blueprint (Api.new "/api" []) bpHello App.empty (some "/bp")).2.2.2.routes
      = App.empty.routes ++ bpHello.deferredRules.map (fun rh =>
          Route.mk (resolveRule (some "/bp") rh.1) (bpHello.name ++ "." ++ rh.2.endpoint) rh.2) ∧
    (register_blueprint (Api.new "/v9" [])
        (register_blueprint (Api.new "/api" []) bpHello App.empty (some "/bp")).2.2.1
        appFoo none).1 = some .repeatedMount ∧
    (register_blueprint (Api.new "/v9" [])
        (register_blueprint (Api.new "/api" []) bpHello App.empty (some "/bp")).2.2.1
        appFoo none).2.2.2 = appFoo := by
  have h := c7_repeated_mount (Api.new "/api" []) bpHello App.empty (some "/bp") rfl rfl
  exact ⟨rfl, rfl, h.1.1, h.1.2, (h.2 (Api.new "/v9" []) appFoo none).1,
         (h.2 (Api.new "/v9" []) appFoo none).2⟩

/-- Applying a chain of tracing decorators logs their names outermost
first, then invokes the wrapped function on the extended log. -/
theorem foldl_wrapName (names : List String) (f : View) (t : List String) :
    (names.map wrapName).foldl (fun g d => d g) f t = f (t ++ names.reverse) := by
  induction names generalizing f t with
  | nil => simp
  | cons n ns ih =>
    simp only [List.map_cons, List.foldl_cons]
    rw [ih (wrapName n f) t]
    show f (t ++ ns.reverse ++ [n]) = f (t ++ (n :: ns).reverse)
    rw [List.reverse_cons, ← List.append_assoc]

/-- Claim C9: the view function is built with the per-registration
decorators applied innermost and the registry-level decorators outermost
around the normalizer-wrapped view, so on a request every registry-level
decorator is entered first, then every per-registration decorator, then
the normalizer-wrapped view, inside which the underlying resource method
runs. -/
theorem c9_decorator_order :
    (∀ (responder resource : View) (regDecs perDecs : List (View → View)),
      buildResourceFunc responder regDecs perDecs resource
        = regDecs.foldl (fun f d => d f)
            (perDecs.foldl (fun f d => d f) (Api.output responder resource))) ∧
    (∀ (responder resource : View) (regNames perNames : List String) (t : List String),
      buildResourceFunc responder (regNames.map wrapName) (perNames.map wrapName) resource t
        = Api.output responder resource (t ++ regNames.reverse ++ perNames.reverse)) := by
  constructor
  · intro responder resource regDecs perDecs
    unfold buildResourceFunc
    rw [List.foldl_append]
  · intro responder resource regNames perNames t
    unfold buildResourceFunc
    rw [List.foldl_append, foldl_wrapName, foldl_wrapName]

/-! ## Helper lemmas for the deferred-vs-direct route comparison -/

theorem lookupVF_append (l1 l2 : List (String × Handler)) (k : String) :
    lookupVF (l1 ++ l2) k =
      match lookupVF l1 k with
      | some v => some v
      | none => lookupVF l2 k := by
  induction l1 with
  | nil => simp [lookupVF]
  | cons kv rest ih =>
    by_cases hk : kv.1 = k <;> simp [lookupVF, hk, ih]

theorem lookupVF_replicate (n : Nat) (k0 : String) (v0 : Handler) (k : String) :
    lookupVF (List.replicate n (k0, v0)) k
      = if n ≠ 0 ∧ k0 = k then some v0 else none := by
  induction n with
  | zero => simp [lookupVF]
  | succ m ih =>
    by_cases hk : k0 = k <;> simp [List.replicate_succ, lookupVF, hk, ih]

theorem replicate_append_cons (n : Nat) (x : α) (l : List α) :
    List.replicate n x ++ (x :: l) = x :: (List.replicate n x ++ l) := by
  induction n with
  | zero => simp
  | succ m ih => simp [List.replicate_succ, ih]

/-- Registering the urls of one entry against a blueprint-bound, not yet
set-up api records one deferred rule per url on the blueprint. -/
theorem registerUrls_bp (s : ApiState) (nm : String) (h1 : s.blueprint = some nm)
    (h2 : s.blueprintSetup = none) (handler : Handler) (urls : List String) :
    ∀ b : BlueprintState, registerUrls s handler urls (.bp b)
      = .bp { b with deferredRules := b.deferredRules
          ++ urls.map (fun u => (UrlRule.deferred u s.pfx, handler)) } := by
  induction urls with
  | nil => intro b; simp [registerUrls]
  | cons u rest ih =>
    intro b
    have hstep : registerUrls s handler (u :: rest) (.bp b)
        = registerUrls s handler rest
            (.bp { b with deferredRules := b.deferredRules
                ++ [(UrlRule.deferred u s.pfx, handler)] }) := by
      simp [registerUrls, h1, h2]
    rw [hstep, ih]
    simp

/-- Registering the urls of one entry against a live application with no
blueprint bound appends one route per url and binds the endpoint to the
view function once per url. -/
theorem registerUrls_flask (s : ApiState) (h1 : s.blueprint = none)
    (handler : Handler) (urls : List String) :
    ∀ a : App, registerUrls s handler urls (.flask a)
      = .flask ⟨a.routes ++ urls.map (fun u =>
            Route.mk (make_url s.pfx u none) handler.endpoint handler),
          List.replicate urls.length (handler.endpoint, handler) ++ a.view_functions⟩ := by
  induction urls with
  | nil => intro a; simp [registerUrls]
  | cons u rest ih =>
    intro a
    have hstep : registerUrls s handler (u :: rest) (.flask a)
        = registerUrls s handler rest
            (.flask (a.add_url_rule (make_url s.pfx u none) handler.endpoint handler)) := by
      simp [registerUrls, h1]
    rw [hstep, ih]
    simp [App.add_url_rule, List.replicate_succ, replicate_append_cons]

/-- Registering entries one after another against a blueprint-bound,
not yet set-up api never raises and accumulates exactly one deferred
rule per declared url on the blueprint. -/
theorem addAll_bp (entries : List Entry) :
    ∀ (s : ApiState) (b : BlueprintState) (nm : String),
      s.blueprint = some nm → s.blueprintSetup = none →
      ∃ eps, addAll s (.bp b) entries
        = (none, { s with endpoints := eps },
           .bp { b with deferredRules := b.deferredRules ++ bpRules s.pfx s.decorators entries }) := by
  induction entries with
  | nil =>
    intro s b nm h1 h2
    exact ⟨s.endpoints, by simp [addAll, bpRules, concatMap]⟩
  | cons e rest ih =>
    intro s b nm h1 h2
    have herr : (register_view s (.bp b) e.resource e.urls e.endpointKw e.decorators).error
        = none := by
      simp [register_view, conflictCheck]
    have hapi : (register_view s (.bp b) e.resource e.urls e.endpointKw e.decorators).api
        = { s with endpoints := insertSet (resE e) s.endpoints } := by
      simp [register_view, conflictCheck, resE]
    have hhost : (register_view s (.bp b) e.resource e.urls e.endpointKw e.decorators).host
        = .bp { b with deferredRules := b.deferredRules ++ e.urls.map (fun u => (UrlRule.deferred u s.pfx, handlerOf s.decorators e)) } := by
      simp only [register_view, conflictCheck]
      rw [registerUrls_bp _ nm (by simpa using h1) (by simpa using h2)]
      simp [handlerOf, resE]
    have hstep : addAll s (.bp b) (e :: rest)
        = addAll { s with endpoints := insertSet (resE e) s.endpoints }
            (.bp { b with deferredRules := b.deferredRules ++ e.urls.map (fun u => (UrlRule.deferred u s.pfx, handlerOf s.decorators e)) })
            rest := by
      simp only [addAll]
      rw [herr, hapi, hhost]
    obtain ⟨eps, hrest⟩ := ih
      { s with endpoints := insertSet (resE e) s.endpoints }
      { b with deferredRules := b.deferredRules ++ e.urls.map (fun u => (UrlRule.deferred u s.pfx, handlerOf s.decorators e)) }
      nm (by simpa using h1) (by simpa using h2)
    refine ⟨eps, ?_⟩
    rw [hstep, hrest]
    simp [bpRules, concatMap]

/-- Registering entries one after another against a live application:
when no endpoint is claimed by two distinct resources (among the entries
or against what the application already serves), no call raises and the
routes and endpoint bindings accumulate entry by entry. -/
theorem addAll_flask (entries : List Entry) :
    ∀ (s : ApiState) (a : App), s.blueprint = none →
      NoConflict entries →
      Consistent a entries →
      ∃ eps, addAll s (.flask a) entries
        = (none, { s with endpoints := eps },
           .flask ⟨a.routes ++ dirRoutes s.pfx s.decorators entries, vfAdd s.decorators entries ++ a.view_functions⟩) := by
  induction entries with
  | nil =>
    intro s a h1 hnc hcons
    exact ⟨s.endpoints, by simp [addAll, dirRoutes, concatMap, vfAdd]⟩
  | cons e rest ih =>
    intro s a h1 hnc hcons
    have hcc : conflictCheck (.flask a) (resolveEndpoint e.endpointKw e.resource.name) e.resource = none := by
      simp only [conflictCheck]
      cases hl : lookupVF a.view_functions (resolveEndpoint e.endpointKw e.resource.name) with
      | none => rfl
      | some hd0 =>
        have hid : hd0.resourceId = e.resource.id :=
          hcons e (List.mem_cons_self e rest) hd0 hl
        simp [hid]
    have herr : (register_view s (.flask a) e.resource e.urls e.endpointKw e.decorators).error = none := by
      simp [register_view, hcc]
    have hapi : (register_view s (.flask a) e.resource e.urls e.endpointKw e.decorators).api
        = { s with endpoints := insertSet (resE e) s.endpoints } := by
      simp [register_view, hcc, resE]
    have hhost : (register_view s (.flask a) e.resource e.urls e.endpointKw e.decorators).host
        = .flask ⟨a.routes ++ e.urls.map (fun u => Route.mk (make_url s.pfx u none) (resE e) (handlerOf s.decorators e)), List.replicate e.urls.length (resE e, handlerOf s.decorators e) ++ a.view_functions⟩ := by
      simp only [register_view, hcc]
      rw [registerUrls_flask _ (by simpa using h1)]
      simp [handlerOf, resE]
    have hstep : addAll s (.flask a) (e :: rest)
        = addAll { s with endpoints := insertSet (resE e) s.endpoints }
            (.flask ⟨a.routes ++ e.urls.map (fun u => Route.mk (make_url s.pfx u none) (resE e) (handlerOf s.decorators e)), List.replicate e.urls.length (resE e, handlerOf s.decorators e) ++ a.view_functions⟩)
            rest := by
      simp only [addAll]
      rw [herr, hapi, hhost]
    have hnc1 : NoConflict rest := by
      intro e1 he1 e2 he2 hre
      exact hnc e1 (List.mem_cons_of_mem _ he1) e2 (List.mem_cons_of_mem _ he2) hre
    have hcons1 : Consistent ⟨a.routes ++ e.urls.map (fun u => Route.mk (make_url s.pfx u none) (resE e) (handlerOf s.decorators e)), List.replicate e.urls.length (resE e, handlerOf s.decorators e) ++ a.view_functions⟩ rest := by
      intro e1 he1 h1x hl1
      have hl2 : lookupVF (List.replicate e.urls.length (resE e, handlerOf s.decorators e) ++ a.view_functions) (resE e1) = some h1x := hl1
      rw [lookupVF_append, lookupVF_replicate] at hl2
      by_cases hc : e.urls.length ≠ 0 ∧ resE e = resE e1
      · rw [if_pos hc] at hl2
        have hx : handlerOf s.decorators e = h1x := by
          simpa using hl2
        have hid : e.resource.id = e1.resource.id :=
          hnc e (List.mem_cons_self e rest) e1 (List.mem_cons_of_mem _ he1) hc.2
        rw [← hx]
        simpa [handlerOf] using hid
      · rw [if_neg hc] at hl2
        simp at hl2
        exact hcons e1 (List.mem_cons_of_mem _ he1) h1x hl2
    obtain ⟨eps, hrest⟩ := ih
      { s with endpoints := insertSet (resE e) s.endpoints }
      ⟨a.routes ++ e.urls.map (fun u => Route.mk (make_url s.pfx u none) (resE e) (handlerOf s.decorators e)), List.replicate e.urls.length (resE e, handlerOf s.decorators e) ++ a.view_functions⟩
      (by simpa using h1) hnc1 hcons1
    refine ⟨eps, ?_⟩
    rw [hstep, hrest]
    simp [dirRoutes, concatMap, vfAdd, List.append_assoc]

/-- A deferred rule resolved with mount prefix `p` equals the direct
composition under the pre-composed prefix `p ++ apiPfx`. -/
theorem deferred_rule_eq_direct (p apiPfx u : String) :
    resolveRule (some p) (UrlRule.deferred u apiPfx) = make_url (p ++ apiPfx) u none := by
  show make_url apiPfx u (some p) = make_url (p ++ apiPfx) u none
  rw [make_url_eq, make_url_eq]
  simp [str_empty_append]

/-- The `(URL, handler)` pairs of the mount-resolved deferred rules agree
with those of the directly registered routes. -/
theorem bpRules_pairs_eq (p apiPfx : String) (decs : List Nat) (entries : List Entry) :
    (bpRules apiPfx decs entries).map (fun rh => (resolveRule (some p) rh.1, rh.2))
      = (dirRoutes (p ++ apiPfx) decs entries).map (fun rt => (rt.rule, rt.handler)) := by
  induction entries with
  | nil => rfl
  | cons e rest ih =>
    simp only [bpRules, dirRoutes, concatMap, List.map_append] at *
    rw [ih]
    congr 1
    rw [List.map_map, List.map_map]
    congr 1
    funext u
    simp [deferred_rule_eq_direct]

/-- A first mount of a group (with the registry's own buffer empty)
installs the setup state, marks the group mounted, and finalizes its
deferred rules into the application. -/
theorem register_blueprint_first (s : ApiState) (b : BlueprintState) (a : App)
    (urlPfx : Option String) (hres : s.resources = []) (hfirst : b.registeredOnce = false) :
    register_blueprint s b a urlPfx
      = (none, { s with blueprintSetup := some ⟨urlPfx, b.name⟩ },
         { b with registeredOnce := true },
         b.deferredRules.foldl (fun acc rh => add_url_rule_patch ⟨urlPfx, b.name⟩ acc rh.1 none rh.2) a) := by
  simp [register_blueprint, deferredBlueprintInit, hfirst, hres, initBuffered]

/-- The deferred pipeline never raises and produces exactly the
mount-resolved, endpoint-qualified routes of the recorded deferred
rules. -/
theorem deferredPipeline_routes (apiPfx : String) (regDecs : List Nat) (bpName : String)
    (entries : List Entry) (mountPfx : Option String) :
    (deferredPipeline apiPfx regDecs bpName entries mountPfx).1 = none ∧
    (deferredPipeline apiPfx regDecs bpName entries mountPfx).2.routes
      = (bpRules apiPfx regDecs entries).map (fun rh =>
          Route.mk (resolveRule mountPfx rh.1) (bpName ++ "." ++ rh.2.endpoint) rh.2) := by
  have hmk : Api.constructWithBlueprint apiPfx regDecs (BlueprintState.fresh bpName)
      = .ok ({ Api.new apiPfx regDecs with blueprint := some bpName },
             { BlueprintState.fresh bpName with hookRecorded := true }) := by
    simp [Api.constructWithBlueprint, init_app, BlueprintState.fresh]
  obtain ⟨eps, hadd⟩ := addAll_bp entries
    { Api.new apiPfx regDecs with blueprint := some bpName }
    { BlueprintState.fresh bpName with hookRecorded := true } bpName rfl rfl
  have hrun := register_blueprint_first
    { { Api.new apiPfx regDecs with blueprint := some bpName } with endpoints := eps }
    { { BlueprintState.fresh bpName with hookRecorded := true } with
        deferredRules := ({ BlueprintState.fresh bpName with hookRecorded := true } : BlueprintState).deferredRules ++ bpRules ({ Api.new apiPfx regDecs with blueprint := some bpName } : ApiState).pfx ({ Api.new apiPfx regDecs with blueprint := some bpName } : ApiState).decorators entries }
    App.empty mountPfx rfl rfl
  constructor
  · simp only [deferredPipeline, hmk, hadd, hrun]
  · simp only [deferredPipeline, hmk, hadd, hrun]
    rw [foldl_patch_routes]
    simp [BlueprintState.fresh, Api.new, App.empty]

/-- The direct pipeline on conflict-free entries never raises and
produces exactly the directly composed routes. -/
theorem directPipeline_routes (effPfx : String) (regDecs : List Nat)
    (entries : List Entry) (hnc : NoConflict entries) :
    (directPipeline effPfx regDecs entries).1 = none ∧
    (directPipeline effPfx regDecs entries).2.routes = dirRoutes effPfx regDecs entries := by
  have hconsE : Consistent App.empty entries := by
    intro e he h hl
    simp [App.empty, lookupVF] at hl
  obtain ⟨eps, hadd⟩ := addAll_flask entries (Api.new effPfx regDecs) App.empty rfl hnc hconsE
  constructor
  · simp only [directPipeline, hadd]
  · simp only [directPipeline, hadd]
    simp [App.empty, Api.new]

/-- Counterexample to claim C2 as stated: with two distinct resources
claiming the same endpoint, the deferred pipeline registers both routes
(its registration path skips the conflict check), while the direct
pipeline raises the endpoint conflict and registers only the first, so
the final `(URL, handler)` route pairs differ. -/
theorem c2_route_equality_counterexample :
    (deferredPipeline "/api" [] "bp" [entryA, entryB] (some "/bp")).1 = none ∧
    (directPipeline ("/bp" ++ "/api") [] [entryA, entryB]).1
      = some (.endpointConflict "e" 0 1) ∧
    routePairs (deferredPipeline "/api" [] "bp" [entryA, entryB] (some "/bp")).2
      ≠ routePairs (directPipeline ("/bp" ++ "/api") [] [entryA, entryB]).2 := by
  decide

/-- Claim C2 as amended: provided no endpoint name is claimed by two
distinct resources among the registered entries, registering them on a
registry bound to a not-yet-mounted group and then mounting with prefix
`p` yields exactly the `(URL, handler)` route pairs of registering them
directly against a live application whose prefix is pre-composed with
`p`. -/
theorem c2_deferred_mount_equiv_amended (apiPfx : String) (regDecs : List Nat)
    (bpName : String) (p : String) (entries : List Entry) (hnc : NoConflict entries) :
    (deferredPipeline apiPfx regDecs bpName entries (some p)).1 = none ∧
    (directPipeline (p ++ apiPfx) regDecs entries).1 = none ∧
    routePairs (deferredPipeline apiPfx regDecs bpName entries (some p)).2
      = routePairs (directPipeline (p ++ apiPfx) regDecs entries).2 := by
  obtain ⟨hd1, hd2⟩ := deferredPipeline_routes apiPfx regDecs bpName entries (some p)
  obtain ⟨hr1, hr2⟩ := directPipeline_routes (p ++ apiPfx) regDecs entries hnc
  refine ⟨hd1, hr1, ?_⟩
  have hpairs := bpRules_pairs_eq p apiPfx regDecs entries
  rw [routePairs, routePairs, hd2, hr2, List.map_map, ← hpairs]
  rfl

/-- Witness for C2's amended claim on two conflict-free entries. -/
theorem c2_deferred_mount_equiv_amended_witness :
    NoConflict [entryA, entryC] ∧
    ((deferredPipeline "/api" [7] "bp" [entryA, entryC] (some "/bp")).1 = none ∧
     (directPipeline ("/bp" ++ "/api") [7] [entryA, entryC]).1 = none ∧
     routePairs (deferredPipeline "/api" [7] "bp" [entryA, entryC] (some "/bp")).2
       = routePairs (directPipeline ("/bp" ++ "/api") [7] [entryA, entryC]).2) :=
  ⟨by unfold NoConflict; decide,
   c2_deferred_mount_equiv_amended "/api" [7] "bp" "/bp" [entryA, entryC]
     (by unfold NoConflict; decide)⟩
